import Mathlib

/-
Verification of the hashdist job runner (src/hashdist/core/run_job.py)
against its natural-language specification.  Python strings are modelled
as lists of characters, environments as ordered association lists
(mirroring dict insertion-order semantics for the operations used), and
the operating system (process spawning, the in-process hit tool, the
current working directory of the runner process) as oracle functions
supplied in a configuration record.  The recursive command-tree
interpreter is bounded by an explicit fuel parameter so that every
definition is executable and reducible by the kernel; running out of
fuel is a distinguished outcome separate from every program error.
-/

namespace RunJob

/-- Python strings are modelled as lists of characters. -/
abbrev Str := List Char

/-- Ordered environment mapping, mirroring a Python dict from names to strings. -/
abbrev Env := List (Str × Str)

/-- Lookup in an environment (dict access). -/
def envGet (k : Str) : Env → Option Str
  | [] => none
  | (k2, v) :: rest => if k2 = k then some v else envGet k rest

/-- Assignment env[k] = v: replaces in place when the key exists (dict
insertion-order semantics), appends otherwise. -/
def envSet (k v : Str) : Env → Env
  | [] => [(k, v)]
  | (k2, w) :: rest => if k2 = k then (k2, v) :: rest else (k2, w) :: envSet k v rest

/-- env.update(overrides): later entries win over existing keys. -/
def envUpdate (e : Env) (overrides : Env) : Env :=
  overrides.foldl (fun acc kv => envSet kv.1 kv.2 acc) e

/-- Boolean string-prefix test, modelling Python str.startswith. -/
def strPre : Str → Str → Bool
  | [], _ => true
  | _ :: _, [] => false
  | a :: as, b :: bs => a = b && strPre as bs

/-- Python sep.join(parts) for a one-character separator. -/
def joinWith (c : Char) : List Str → Str
  | [] => []
  | [p] => p
  | p :: q :: rest => p ++ c :: joinWith c (q :: rest)

/-- Python s.split(sep) for a one-character separator: no maxsplit, keeps
empty fields, and the split of the empty string is one empty field. -/
def splitOnChar (c : Char) : Str → List Str
  | [] => [[]]
  | x :: xs =>
    if x = c then [] :: splitOnChar c xs
    else
      match splitOnChar c xs with
      | [] => [[x]]
      | s :: ss => (x :: s) :: ss

/-- The whitespace set of Python str.strip(). -/
def isPySpace (c : Char) : Bool :=
  c = ' ' || c = '\t' || c = '\n' || c = '\r' || c = '\x0b' || c = '\x0c'

/-- Python s.strip(). -/
def stripStr (s : Str) : Str :=
  ((s.dropWhile isPySpace).reverse.dropWhile isPySpace).reverse

/-- Python str(n) for a natural number. -/
def natStr (n : Nat) : Str := Nat.toDigits 10 n

/- ===== Variable substitution (run_job.py lines 362-375) =====
The module-level substitute is the effective definition: the earlier
three-argument substitute at line 219 is shadowed by it at module load
time, and CommandTreeExecution.substitute wraps it, turning KeyError
into ValueError with the same abort behaviour. -/

/-- Test for the reserved sequence of two dollar signs (line 370). -/
def hasDollarDollar : Str → Bool
  | '$' :: '$' :: _ => true
  | _ :: rest => hasDollarDollar rest
  | [] => false

/-- x.replace(four backslashes, two backslashes): the source line
x.replace(raw backslash-backslash-backslash-backslash, raw
backslash-backslash) compares the literal four-character run, replacing
left to right without overlap. -/
def replaceQuadBackslash : Str → Str
  | '\\' :: '\\' :: '\\' :: '\\' :: rest => '\\' :: '\\' :: replaceQuadBackslash rest
  | c :: rest => c :: replaceQuadBackslash rest
  | [] => []

/-- x.replace(backslash-dollar, dollar-dollar), line 374. -/
def replaceBackslashDollar : Str → Str
  | '\\' :: '$' :: rest => '$' :: '$' :: replaceBackslashDollar rest
  | c :: rest => c :: replaceBackslashDollar rest
  | [] => []

/-- The failure modes of substitute: the explicit dollar-dollar KeyError,
the KeyError of string.Template for an unbound name, and the ValueError
of string.Template for an invalid placeholder. -/
inductive SubstErr where
  | dollarDollar
  | unknownVar (name : Str)
  | invalidPlaceholder
deriving DecidableEq

/-- Python 2.7 Template identifier start: underscore or ASCII letter
(pattern group with IGNORECASE). -/
def isIdStart (c : Char) : Bool := c.isAlpha || c = '_'

/-- Python 2.7 Template identifier continuation character. -/
def isIdChar (c : Char) : Bool := c.isAlphanum || c = '_'

/-- Scanner modes for the left-to-right regex scan of Template.substitute:
plain text, just after a dollar, inside a braced name, inside a bare name. -/
inductive TMode where
  | plain
  | dollar
  | inBrace (acc : Str)
  | inName (acc : Str)
deriving DecidableEq

/-- string.Template(x).substitute(env): left-to-right scan replacing
dollar-dollar by a literal dollar, bare and braced identifiers by their
env value (KeyError when unbound), and raising ValueError on any other
use of the dollar sign. -/
def tsGo (env : Env) : TMode → Str → Except SubstErr Str
  | .plain, [] => .ok []
  | .plain, c :: rest =>
    if c = '$' then tsGo env .dollar rest
    else (tsGo env .plain rest).map (fun t => c :: t)
  | .dollar, [] => .error .invalidPlaceholder
  | .dollar, c :: rest =>
    if c = '$' then (tsGo env .plain rest).map (fun t => '$' :: t)
    else if c = '\x7b' then tsGo env (.inBrace []) rest
    else if isIdStart c then tsGo env (.inName [c]) rest
    else .error .invalidPlaceholder
  | .inBrace _, [] => .error .invalidPlaceholder
  | .inBrace acc, c :: rest =>
    if c = '\x7d' then
      if acc = [] then .error .invalidPlaceholder
      else
        match envGet acc env with
        | none => .error (.unknownVar acc)
        | some v => (tsGo env .plain rest).map (fun t => v ++ t)
    else if (if acc = [] then isIdStart c else isIdChar c) then
      tsGo env (.inBrace (acc ++ [c])) rest
    else .error .invalidPlaceholder
  | .inName acc, [] =>
    match envGet acc env with
    | none => .error (.unknownVar acc)
    | some v => .ok v
  | .inName acc, c :: rest =>
    if isIdChar c then tsGo env (.inName (acc ++ [c])) rest
    else
      match envGet acc env with
      | none => .error (.unknownVar acc)
      | some v =>
        if c = '$' then (tsGo env .dollar rest).map (fun t => v ++ t)
        else (tsGo env .plain rest).map (fun t => v ++ c :: t)

/-- substitute(x, env), run_job.py lines 362-375: reject the reserved
dollar-dollar sequence, rewrite the two backslash escapes, then expand
with string.Template. -/
def substitute (x : Str) (env : Env) : Except SubstErr Str :=
  if hasDollarDollar x then .error .dollarDollar
  else tsGo env .plain (replaceBackslashDollar (replaceQuadBackslash x))

/-- Success test for an Except value. -/
def exOk {e a : Type} : Except e a → Bool
  | .ok _ => true
  | .error _ => false

/-- Success predicate of the Template scan, written as an independent
Boolean check following the wording of the specification: every dollar
sign must begin an escaped dollar, a bound bare name, or a bound braced
name.  Compared against tsGo in the claim about substitution failure. -/
def tsOk (env : Env) : TMode → Str → Bool
  | .plain, [] => true
  | .plain, c :: rest =>
    if c = '$' then tsOk env .dollar rest else tsOk env .plain rest
  | .dollar, [] => false
  | .dollar, c :: rest =>
    if c = '$' then tsOk env .plain rest
    else if c = '\x7b' then tsOk env (.inBrace []) rest
    else if isIdStart c then tsOk env (.inName [c]) rest
    else false
  | .inBrace _, [] => false
  | .inBrace acc, c :: rest =>
    if c = '\x7d' then
      if acc = [] then false
      else (envGet acc env).isSome && tsOk env .plain rest
    else if (if acc = [] then isIdStart c else isIdChar c) then
      tsOk env (.inBrace (acc ++ [c])) rest
    else false
  | .inName acc, [] => (envGet acc env).isSome
  | .inName acc, c :: rest =>
    if isIdChar c then tsOk env (.inName (acc ++ [c])) rest
    else
      (envGet acc env).isSome &&
        (if c = '$' then tsOk env .dollar rest else tsOk env .plain rest)

/- ===== HDIST_VIRTUALS packing (run_job.py lines 377-384) ===== -/

/-- Strict lexicographic order on strings by code point, as Python
compares strings. -/
def strLt : Str → Str → Bool
  | [], [] => false
  | [], _ :: _ => true
  | _ :: _, [] => false
  | a :: as, b :: bs => if a = b then strLt as bs else decide (a < b)

/-- Python tuple comparison on (key, value) pairs as used by sorted(). -/
def pairLe (p q : Str × Str) : Bool :=
  strLt p.1 q.1 || (p.1 = q.1 && (strLt p.2 q.2 || p.2 = q.2))

/-- Insert into a sorted list of pairs. -/
def insertPair (p : Str × Str) : List (Str × Str) → List (Str × Str)
  | [] => [p]
  | q :: rest => if pairLe p q then p :: q :: rest else q :: insertPair p rest

/-- sorted(virtuals.items()): insertion sort by Python pair order. -/
def sortPairs : List (Str × Str) → List (Str × Str)
  | [] => []
  | p :: rest => insertPair p (sortPairs rest)

/-- One k=v entry of the packed HDIST_VIRTUALS value. -/
def packEntry (p : Str × Str) : Str := p.1 ++ '=' :: p.2

/-- pack_virtuals_envvar (line 377): semicolon-join the sorted k=v pairs.
The virtuals dict is represented by its association list. -/
def pack_virtuals_envvar (v : List (Str × Str)) : Str :=
  joinWith ';' ((sortPairs v).map packEntry)

/-- dict(tuple(e.split(sep)) ...): an entry contributes a pair only when
splitting it on every equals sign yields exactly two fields; any other
arity makes the dict constructor raise ValueError, modelled as none. -/
def unpackEntries : List Str → Option (List (Str × Str))
  | [] => some []
  | e :: rest =>
    match splitOnChar '=' e with
    | [k, v] =>
      match unpackEntries rest with
      | some acc => some ((k, v) :: acc)
      | none => none
    | _ => none

/-- unpack_virtuals_envvar (lines 380-384).  The resulting dict is
represented by the list of pairs in split order. -/
def unpack_virtuals_envvar (x : Str) : Option (List (Str × Str)) :=
  if x = [] then some [] else unpackEntries (splitOnChar ';' x)

/-- Keys and values free of the two separator characters. -/
def sepFree (p : Str × Str) : Bool :=
  p.1.all (fun c => !(c = '=') && !(c = ';')) &&
    p.2.all (fun c => !(c = '=') && !(c = ';'))

/- ===== posix path operations used by the runner ===== -/

/-- posixpath.isabs. -/
def isAbs (p : Str) : Bool :=
  match p with
  | '/' :: _ => true
  | _ => false

/-- posixpath.join for two arguments (os.path.join as used in the runner). -/
def pjoin (a b : Str) : Str :=
  if isAbs b then b
  else if a = [] then b
  else if a.getLast? = some '/' then a ++ b
  else a ++ '/' :: b

/-- One step of the component loop of posixpath.normpath; the
accumulator holds components most recent first. -/
def normStep (slashes : Nat) (acc : List Str) (comp : Str) : List Str :=
  if comp = [] || comp = ['.'] then acc
  else if comp ≠ ['.', '.'] then comp :: acc
  else
    match acc with
    | [] => if slashes = 0 then [comp] else []
    | last :: rest => if last = ['.', '.'] then comp :: acc else rest

/-- posixpath.normpath: collapse duplicate slashes (keeping the special
two-leading-slash case), drop single dots, resolve double dots. -/
def normpath (p : Str) : Str :=
  if p = [] then ['.']
  else
    let slashes : Nat :=
      if strPre ['/', '/', '/'] p then 1
      else if strPre ['/', '/'] p then 2
      else if strPre ['/'] p then 1
      else 0
    let rev := (splitOnChar '/' p).foldl (normStep slashes) []
    let res := List.replicate slashes '/' ++ joinWith '/' rev.reverse
    if res = [] then ['.'] else res

/-- os.path.abspath: join a relative path with the working directory of
the runner process (an oracle parameter), then normalize. -/
def abspath (processCwd p : Str) : Str :=
  normpath (if isAbs p then p else pjoin processCwd p)

/-- os.path.realpath.  Symbolic-link resolution depends on the state of
the file system and is not modelled; on a link-free tree realpath
coincides with abspath, which is what this model uses. -/
def realpath (processCwd p : Str) : Str := abspath processCwd p

/-- Follows the wording of the specification: a path lies within a
directory when it equals the directory or extends it past a slash.
Compared against the startswith check of the source in the claim about
append_to_file redirection. -/
def pathWithin (dir p : Str) : Bool :=
  p = dir || strPre (dir ++ ['/']) p

/- ===== Data model of command nodes ===== -/

/-- One entry of the inputs list of a command node.  Each entry is a
dict with exactly one of the keys text, string, json; an entry with a
different key set raises and is not representable here.  A json payload
is represented by its json.dumps(value, indent=4) serialization. -/
inductive InputSpec where
  | textInput (lines : List Str)
  | stringInput (s : Str)
  | jsonInput (serialized : Str)

/-- The serialized content dumped for an input entry (run_job.py
lines 452-462). -/
def inputContent : InputSpec → Str
  | .textInput lines => joinWith '\n' lines
  | .stringInput s => s
  | .jsonInput ser => ser

/-- The extra filename suffix of an input entry: json entries gain a
.json suffix after joining with the temp dir. -/
def inputSuffix : InputSpec → Str
  | .jsonInput _ => ".json".toList
  | _ => []

/-- The non-recursive keys a command-node dict may carry.  The field
set mirrors run_job.py: set is the env-overwrite kind, stdout_to_file
is the stale key name tested at line 550, extraKeys counts any keys the
runner does not know about (they only matter for the emptiness test of
run_node). -/
structure NFields where
  cmd : Option (List Str) := none
  hit : Option (List Str) := none
  set : Option Str := none
  prepend_path : Option Str := none
  append_path : Option Str := none
  prepend_flag : Option Str := none
  append_flag : Option Str := none
  chdir : Option Str := none
  value : Option Str := none
  nohash_value : Option Str := none
  to_var : Option Str := none
  append_to_file : Option Str := none
  stdout_to_file : Option Str := none
  inputs : Option (List InputSpec) := none
  extraKeys : Nat := 0

/-- A command node: its flat keys plus the optional commands key with
the nested sub-list. -/
inductive Node where
  | mk (f : NFields) (commands : Option (List Node))

/-- The number 1 for a present key, 0 for an absent one. -/
def optCount {a : Type} (o : Option a) : Nat := if o.isSome then 1 else 0

/-- len(node): how many keys the node dict carries. -/
def nodeLen (f : NFields) (cs : Option (List Node)) : Nat :=
  optCount cs + optCount f.cmd + optCount f.hit + optCount f.set +
    optCount f.prepend_path + optCount f.append_path + optCount f.prepend_flag +
    optCount f.append_flag + optCount f.chdir + optCount f.value +
    optCount f.nohash_value + optCount f.to_var + optCount f.append_to_file +
    optCount f.stdout_to_file + optCount f.inputs + f.extraKeys

/-- How many of the nine action-type keys of run_node are present. -/
def presentTypes (f : NFields) (cs : Option (List Node)) : Nat :=
  optCount cs + optCount f.cmd + optCount f.hit + optCount f.set +
    optCount f.prepend_path + optCount f.append_path + optCount f.prepend_flag +
    optCount f.append_flag + optCount f.chdir

/- ===== Executor state, oracles and error kinds ===== -/

/-- Where sys.stdout currently points: the terminal, or the capture
sink installed by run_hit while a to_var or append_to_file capture is
active. -/
inductive StdoutTgt where
  | terminal
  | captureBuf
deriving DecidableEq

/-- Observable state of a CommandTreeExecution run: the last_env
snapshot, the log of file writes inside and outside the temp dir, the
log-pipe registry, and the two process-wide values saved and restored
by run_hit. -/
structure ExecState where
  lastEnv : Option Env
  files : List (Str × Str)
  fifos : List ((Str × Int) × Str)
  loggerLevel : Int
  sysStdout : StdoutTgt
deriving DecidableEq

/-- Result of Popen plus the supervision loop for one child: the spawn
can fail with ENOENT, or the child runs to an exit code having written
some bytes to stdout. -/
inductive SpawnRes where
  | enoent
  | done (code : Int) (out : Str)

/-- The oracles and fixed parameters of one run: the child-process
supervisor, the in-process hit tool entry point, the debug flag and the
exit code of an interactive debug shell, the run temp dir, and the
working directory of the runner process used by abspath. -/
structure Config where
  spawn : List Str → Env → SpawnRes
  hitTool : List Str → Env → Int × Str
  debug : Bool
  debugShellCode : Int
  tempDir : Str
  processCwd : Str

/-- Log levels of hashdist.hdist_logging, with the ordering of the
standard logging module (the module itself is not part of the job
runner source; only the ordering CRITICAL over ERROR over WARNING over
INFO over DEBUG matters here). -/
def DEBUG : Int := 10

/-- INFO log level. -/
def INFO : Int := 20

/-- WARNING log level. -/
def WARNING : Int := 30

/-- ERROR log level. -/
def ERROR : Int := 40

/-- CRITICAL log level. -/
def CRITICAL : Int := 50

/-- The ways a run aborts.  Python exception classes are flattened into
one kind per raise site relevant to the claims: keyErrorCommands is the
KeyError raised by handle_imports at line 271 when the commands key is
missing, hitNameErrorRet is the NameError raised at line 652 where the
undefined name ret is interpolated, fuelExhausted is the out-of-fuel
outcome of the bounded interpreter and corresponds to no Python
behaviour. -/
inductive RunErr where
  | invalidJobSpec
  | valueError
  | typeError
  | substErr (e : SubstErr)
  | keyErrorValue
  | keyErrorPwd
  | keyErrorCommands
  | emptyRef
  | missingVirtual (id : Str)
  | unbuiltDependency
  | commandNotFound
  | commandFailed (code : Int)
  | hitNameErrorRet
  | hitLogpipeArgs
  | badLogLevel
  | redirectToTempForbidden
  | debugAborted
  | assertFalse
  | fuelExhausted
deriving DecidableEq

/-- Level-name table of create_log_pipe (line 886). -/
def levelOfStr (s : Str) : Option Int :=
  if s = "CRITICAL".toList then some CRITICAL
  else if s = "ERROR".toList then some ERROR
  else if s = "WARNING".toList then some WARNING
  else if s = "INFO".toList then some INFO
  else if s = "DEBUG".toList then some DEBUG
  else none

/-- Registry lookup keyed by sublogger name and numeric level. -/
def fifoGet (k : Str × Int) : List ((Str × Int) × Str) → Option Str
  | [] => none
  | (k2, v) :: rest => if k2 = k then some v else fifoGet k rest

/-- create_log_pipe (lines 885-892): map the level token, reuse the
registered FIFO for the key or create and register a fresh one, and
return the path that is then written to sys.stdout. -/
def create_log_pipe (cfg : Config) (name levelStr : Str) (st : ExecState) :
    Except RunErr (Str × ExecState) :=
  match levelOfStr levelStr with
  | none => .error .badLogLevel
  | some lvl =>
    match fifoGet (name, lvl) st.fifos with
    | some path => .ok (path, st)
    | none =>
      let path := pjoin cfg.tempDir ("logpipe-".toList ++ name ++ '-' :: levelStr)
      .ok (path, { st with fifos := st.fifos ++ [((name, lvl), path)] })

/-- run_cmd plus logged_check_call (lines 616-726): spawn with the node
env, report ENOENT as command-not-found, forward stdout to the capture
sink when one is active, and raise CalledProcessError on a non-zero
exit.  The returned string is what reached the capture sink. -/
def runCmd (cfg : Config) (args : List Str) (env : Env) (capture : Bool)
    (st : ExecState) : (Except RunErr Str) × ExecState :=
  match cfg.spawn args env with
  | .enoent => (.error .commandNotFound, st)
  | .done code out =>
    if code ≠ 0 then (.error (.commandFailed code), st)
    else (.ok (if capture then out else []), st)

/-- The body of run_hit between the try and the finally: dispatch
logpipe invocations to create_log_pipe, everything else to the tool
entry point, and raise on a non-zero return code.  That raise (line
652) interpolates the undefined name ret, so the exception that
actually leaves is a NameError, modelled as hitNameErrorRet. -/
def runHitBody (cfg : Config) (args : List Str) (env : Env) (capture : Bool)
    (st : ExecState) : (Except RunErr Str) × ExecState :=
  let args2 := "hit".toList :: args
  let toolCase : (Except RunErr Str) × ExecState :=
    let r := cfg.hitTool args2 env
    if r.1 ≠ 0 then (.error .hitNameErrorRet, st)
    else (.ok (if capture then r.2 else []), st)
  match args2.get? 1 with
  | none => toolCase
  | some a1 =>
    if a1 = "logpipe".toList then
      if args2.length ≠ 4 then (.error .hitLogpipeArgs, st)
      else
        match args2.get? 2, args2.get? 3 with
        | some name, some lvl =>
          match create_log_pipe cfg name lvl st with
          | .error e => (.error e, st)
          | .ok (path, st2) => (.ok (if capture then path else []), st2)
        | _, _ => (.error .hitLogpipeArgs, st)
    else toolCase

/-- run_hit (lines 628-661): prefix the argv with hit, lower a
verbose logger to WARNING and redirect process-wide stdout to the
capture sink for the duration, run the body, and restore both saved
values in the finally clause on every exit path. -/
def runHit (cfg : Config) (args : List Str) (env : Env) (capture : Bool)
    (st : ExecState) : (Except RunErr Str) × ExecState :=
  let st1 := { st with
    loggerLevel := if st.loggerLevel > DEBUG then WARNING else st.loggerLevel,
    sysStdout := if capture then .captureBuf else st.sysStdout }
  let body := runHitBody cfg args env capture st1
  (body.1, { body.2 with loggerLevel := st.loggerLevel, sysStdout := st.sysStdout })

/-- debug_call (lines 663-686): materialize an rcfile in a throwaway
directory outside the run temp dir, run an interactive shell, and abort
the build when it exits non-zero. -/
def debugCall (cfg : Config) (st : ExecState) : (Except RunErr Str) × ExecState :=
  if cfg.debugShellCode ≠ 0 then (.error .debugAborted, st) else (.ok [], st)

/-- The loop of dump_inputs (lines 444-467): one file per entry named
from the node position, json entries gaining a .json suffix, each
exposed as an in-k binding of the returned env fragment. -/
def dumpLoop (cfg : Config) (base : Str) : List InputSpec → Nat → Env → ExecState →
    Env × ExecState
  | [], _, accEnv, st => (accEnv, st)
  | inp :: rest, i, accEnv, st =>
    let name := "in".toList ++ natStr i
    let filename := pjoin cfg.tempDir (base ++ '_' :: name) ++ inputSuffix inp
    dumpLoop cfg base rest (i + 1) (envSet name filename accEnv)
      { st with files := st.files ++ [(filename, inputContent inp)] }

/-- dump_inputs: the env fragment with the in-k bindings plus the file
writes into the temp dir. -/
def dump_inputs (cfg : Config) (inputs : List InputSpec) (pos : List Nat)
    (st : ExecState) : Env × ExecState :=
  dumpLoop cfg (joinWith '_' (pos.map natStr)) inputs 0 [] st

/-- The three env-mod actions of handle_env_mod. -/
inductive MAction where
  | setA
  | prependA
  | appendA
deriving DecidableEq

/-- value resolution of handle_env_mod (lines 526-528): nohash_value is
preferred; a node with neither raises KeyError. -/
def envModValue (f : NFields) : Except RunErr Str :=
  match f.nohash_value with
  | some v => .ok v
  | none =>
    match f.value with
    | some v => .ok v
    | none => .error .keyErrorValue

/-- handle_env_mod (lines 525-537): substitute the value, then
overwrite for set, behave like set when the target is absent or empty,
and otherwise join with the separator of the kind. -/
def handle_env_mod (f : NFields) (varname : Str) (action : MAction) (sep : Str)
    (env : Env) : Except RunErr Env :=
  match envModValue f with
  | .error e => .error e
  | .ok raw =>
    match substitute raw env with
    | .error e => .error (.substErr e)
    | .ok value =>
      match action, envGet varname env with
      | .setA, _ => .ok (envSet varname value env)
      | _, none => .ok (envSet varname value env)
      | a, some old =>
        if old = [] then .ok (envSet varname value env)
        else
          match a with
          | .prependA => .ok (envSet varname (value ++ sep ++ old) env)
          | _ => .ok (envSet varname (old ++ sep ++ value) env)

/-- The PWD key. -/
def pwdKey : Str := "PWD".toList

/-- handle_chdir (lines 502-504): substitute the operand, join with the
current PWD of the scope env, absolutize, and store back into PWD of
that same env. -/
def handle_chdir (cfg : Config) (f : NFields) (env : Env) : Except RunErr Env :=
  match f.chdir with
  | none => .error .keyErrorValue
  | some raw =>
    match substitute raw env with
    | .error e => .error (.substErr e)
    | .ok d =>
      match envGet pwdKey env with
      | none => .error .keyErrorPwd
      | some pwd => .ok (envSet pwdKey (abspath cfg.processCwd (pjoin pwd d)) env)

/-- Substitute every element of an argv list under the node env. -/
def substList (xs : List Str) (env : Env) : Except SubstErr (List Str) :=
  match xs with
  | [] => .ok []
  | x :: rest =>
    match substitute x env with
    | .error e => .error e
    | .ok y =>
      match substList rest env with
      | .error e => .error e
      | .ok ys => .ok (y :: ys)

/-- handle_command_nodes (lines 545-605) for a cmd or hit node: the
structural checks (the second of which tests the stale key
stdout_to_file and the third of which is unreachable because
handle_commands never calls this function), the node-env copy extended
with materialized inputs, argv substitution, and the three output
branches.  to_var writes into the env of the enclosing scope; the
append_to_file target is substituted under the node env, absolutized
against PWD, canonicalized, and refused when it extends the temp-dir
path; the plain branch dispatches to the debug shell for cmd nodes when
debug is on.  On success last_env is set to the node env. -/
def handle_command_nodes (cfg : Config) (f : NFields) (cs : Option (List Node))
    (pos : List Nat) (env : Env) (st : ExecState) :
    Except RunErr (Env × ExecState) :=
  if optCount f.cmd + optCount f.hit + optCount cs + optCount f.set ≠ 1 then
    .error .valueError
  else if optCount f.to_var + optCount f.stdout_to_file > 1 then
    .error .valueError
  else if cs.isSome &&
      (f.append_to_file.isSome || f.to_var.isSome || f.inputs.isSome) then
    .error .valueError
  else if f.cmd.isSome || f.hit.isSome then
    let (inEnv, st1) := dump_inputs cfg (f.inputs.getD []) pos st
    let node_env := envUpdate env inEnv
    let argsRaw := f.cmd.getD (f.hit.getD [])
    let isCmd := f.cmd.isSome
    match substList argsRaw node_env with
    | .error e => .error (.substErr e)
    | .ok args =>
      match f.to_var with
      | some v =>
        let r := if isCmd then runCmd cfg args node_env true st1
          else runHit cfg args node_env true st1
        match r.1 with
        | .error e => .error e
        | .ok captured =>
          .ok (envSet v (stripStr captured) env,
            { r.2 with lastEnv := some node_env })
      | none =>
        match f.append_to_file with
        | some tgtRaw =>
          match substitute tgtRaw node_env with
          | .error e => .error (.substErr e)
          | .ok tgt0 =>
            let t1 : Except RunErr Str :=
              if isAbs tgt0 then .ok tgt0
              else
                match envGet pwdKey env with
                | none => .error .keyErrorPwd
                | some pwd => .ok (pjoin pwd tgt0)
            match t1 with
            | .error e => .error e
            | .ok t1v =>
              let t2 := realpath cfg.processCwd t1v
              if strPre cfg.tempDir t2 then .error .redirectToTempForbidden
              else
                let r := if isCmd then runCmd cfg args node_env true st1
                  else runHit cfg args node_env true st1
                match r.1 with
                | .error e => .error e
                | .ok content =>
                  .ok (env, { r.2 with
                    files := r.2.files ++ [(t2, content)],
                    lastEnv := some node_env })
        | none =>
          let r :=
            if isCmd then
              if cfg.debug then debugCall cfg st1
              else runCmd cfg args node_env false st1
            else runHit cfg args node_env false st1
          match r.1 with
          | .error e => .error e
          | .ok _ => .ok (env, { r.2 with lastEnv := some node_env })
  else .error .assertFalse

/-- run_command_list (lines 611-614) parameterized by the node runner:
execute the nodes in order, threading the scope env and the executor
state, with positions extending the prefix by the sibling index. -/
def runListWith
    (run : Node → List Nat → Env → ExecState → Except RunErr (Env × ExecState)) :
    List Node → List Nat → Nat → Env → ExecState →
    Except RunErr (Env × ExecState)
  | [], _, _, env, st => .ok (env, st)
  | n :: rest, pos, i, env, st =>
    match run n (pos ++ [i]) env st with
    | .error e => .error e
    | .ok (env2, st2) => runListWith run rest pos (i + 1) env2 st2

/-- run_node (lines 469-500) plus the kind handlers, bounded by fuel
(one unit per nesting level of commands scopes): reject nodes with
several type keys or with foreign keys only, treat the empty node as a
no-op, and dispatch.  A commands node runs its sub-list on a copy of
the env and discards the copy on exit (handle_commands, lines 607-609);
the env-mod and chdir handlers mutate the scope env in place. -/
def runNode (cfg : Config) : Nat → Node → List Nat → Env → ExecState →
    Except RunErr (Env × ExecState)
  | 0, _, _, _, _ => .error .fuelExhausted
  | fuel + 1, Node.mk f cs, pos, env, st =>
    if presentTypes f cs = 0 then
      if nodeLen f cs > 0 then .error .invalidJobSpec else .ok (env, st)
    else if 1 < presentTypes f cs then .error .invalidJobSpec
    else if cs.isSome then
      match runListWith (fun n p e s => runNode cfg fuel n p e s)
          (cs.getD []) pos 0 env st with
      | .error e => .error e
      | .ok (_, st2) => .ok (env, st2)
    else if f.cmd.isSome || f.hit.isSome then
      handle_command_nodes cfg f cs pos env st
    else if f.set.isSome then
      match handle_env_mod f (f.set.getD []) .setA [] env with
      | .error e => .error e
      | .ok e2 => .ok (e2, st)
    else if f.prepend_path.isSome then
      match handle_env_mod f (f.prepend_path.getD []) .prependA [':'] env with
      | .error e => .error e
      | .ok e2 => .ok (e2, st)
    else if f.append_path.isSome then
      match handle_env_mod f (f.append_path.getD []) .appendA [':'] env with
      | .error e => .error e
      | .ok e2 => .ok (e2, st)
    else if f.prepend_flag.isSome then
      match handle_env_mod f (f.prepend_flag.getD []) .prependA [' '] env with
      | .error e => .error e
      | .ok e2 => .ok (e2, st)
    else if f.append_flag.isSome then
      match handle_env_mod f (f.append_flag.getD []) .appendA [' '] env with
      | .error e => .error e
      | .ok e2 => .ok (e2, st)
    else if f.chdir.isSome then
      match handle_chdir cfg f env with
      | .error e => .error e
      | .ok e2 => .ok (e2, st)
    else .error .assertFalse

/-- Top-level run_command_list entry with the empty position prefix. -/
def run_command_list (cfg : Config) (fuel : Nat) (commands : List Node)
    (env : Env) (st : ExecState) : Except RunErr (Env × ExecState) :=
  runListWith (fun n p e s => runNode cfg fuel n p e s) commands [] 0 env st

/- ===== Import resolution and run_job ===== -/

/-- One entry of the import list.  ref collapses the absent key and an
explicit null into none, as canonicalize_job_spec does with setdefault;
an empty-string ref is representable and rejected there. -/
structure ImportSpec where
  id : Str
  ref : Option Str := none

/-- The job spec document: the import list and the optional commands
key (the commands field is none when the key is missing from the
document). -/
structure JobSpec where
  jobImports : List ImportSpec := []
  commands : Option (List Node) := none

/-- The external collaborators of import resolution: the artifact
resolver of the build store, the artifact dir for this run, and the
virtuals mapping. -/
structure ImportsCfg where
  resolve : Str → Option Str
  artifact_dir : Str
  virtuals : List (Str × Str)

/-- canonicalize_import (lines 351-354): default the ref to absent and
reject an empty-string ref. -/
def canonicalize_import (item : ImportSpec) : Except RunErr ImportSpec :=
  match item.ref with
  | some r => if r = [] then .error .emptyRef else .ok item
  | none => .ok item

/-- Canonicalize every import entry. -/
def canonicalize_imports : List ImportSpec → Except RunErr (List ImportSpec)
  | [] => .ok []
  | item :: rest =>
    match canonicalize_import item with
    | .error e => .error e
    | .ok item2 =>
      match canonicalize_imports rest with
      | .error e => .error e
      | .ok rest2 => .ok (item2 :: rest2)

/-- The per-import loop of handle_imports (lines 247-268): substitute
virtual ids through the virtuals mapping, resolve through the build
store, accumulate the id and path lists, and bind REF_DIR and REF_ID
when a ref is given. -/
def resolveLoop (icfg : ImportsCfg) : List ImportSpec → Env → List Str →
    List Str → Except RunErr (Env × List Str × List Str)
  | [], env, ids, paths => .ok (env, ids, paths)
  | imp :: rest, env, ids, paths =>
    let depId : Except RunErr Str :=
      if strPre "virtual:".toList imp.id then
        match envGet imp.id icfg.virtuals with
        | none => .error (.missingVirtual imp.id)
        | some real => .ok real
      else .ok imp.id
    match depId with
    | .error e => .error e
    | .ok dep_id =>
      match icfg.resolve dep_id with
      | none => .error .unbuiltDependency
      | some dep_dir =>
        let env2 :=
          match imp.ref with
          | none => env
          | some r =>
            envSet (r ++ "_ID".toList) dep_id
              (envSet (r ++ "_DIR".toList) dep_dir env)
        resolveLoop icfg rest env2 (ids ++ [dep_id]) (paths ++ [dep_dir])

/-- handle_imports (lines 227-274): canonicalize, run the import loop,
then read job_spec of commands — a KeyError when the key is missing,
since canonicalize_job_spec does not default it — prepend the synthetic
ARTIFACT set node, and finalize the two HDIST_IMPORT variables. -/
def handle_imports (icfg : ImportsCfg) (spec : JobSpec) :
    Except RunErr (Env × List Node) :=
  match canonicalize_imports spec.jobImports with
  | .error e => .error e
  | .ok cimports =>
    match resolveLoop icfg cimports [] [] [] with
    | .error e => .error e
    | .ok (env0, ids, paths) =>
      match spec.commands with
      | none => .error .keyErrorCommands
      | some cmds =>
        let setArtifact : Node :=
          .mk { set := some "ARTIFACT".toList, value := some icfg.artifact_dir } none
        let env1 := envSet "HDIST_IMPORT_PATHS".toList (joinWith ':' paths)
          (envSet "HDIST_IMPORT".toList (joinWith ' ' ids) env0)
        .ok (env1, setArtifact :: cmds)

/-- run_job (lines 276-344): resolve imports, return an empty dict when
the commands key is missing (dead code behind the KeyError of
handle_imports), assemble the base env, run the command list, and
return last_env — still none when no cmd or hit node ran.  The
serialized HDIST_CONFIG value is an oracle parameter. -/
def run_job (cfg : Config) (icfg : ImportsCfg) (fuel : Nat) (spec : JobSpec)
    (override_env : Env) (cwd : Str) (configStr : Str) (loggerLevel0 : Int) :
    Except RunErr (Option Env) :=
  match handle_imports icfg spec with
  | .error e => .error e
  | .ok (env0, assembled) =>
    match spec.commands with
    | none => .ok (some [])
    | some _ =>
      let env1 := envSet "PATH".toList [] env0
      let env2 := envUpdate env1 override_env
      let env3 := envSet "HDIST_VIRTUALS".toList
        (pack_virtuals_envvar icfg.virtuals) env2
      let env4 := envSet "HDIST_CONFIG".toList configStr env3
      let env5 := envSet pwdKey (abspath cfg.processCwd cwd) env4
      let st0 : ExecState :=
        { lastEnv := none
          files := []
          fifos := []
          loggerLevel := loggerLevel0
          sysStdout := .terminal }
      match run_command_list cfg fuel assembled env5 st0 with
      | .error e => .error e
      | .ok (_, st1) => .ok st1.lastEnv

/- ===== Syntactic predicate: trees without cmd and hit nodes ===== -/

mutual

/-- True when the node and all nodes nested below it carry neither the
cmd nor the hit key. -/
def noCmdHit : Node → Bool
  | .mk f none => f.cmd.isNone && f.hit.isNone
  | .mk f (some l) => f.cmd.isNone && f.hit.isNone && noCmdHitList l

/-- noCmdHit over a node list. -/
def noCmdHitList : List Node → Bool
  | [] => true
  | n :: rest => noCmdHit n && noCmdHitList rest

end

/- ===== Concrete objects used by witnesses and counterexamples ===== -/

/-- A concrete run configuration: every spawned child exits 0 after
printing one line, the hit tool always fails with code 1, debug is off,
and the run temp dir is /tmp/t. -/
def cfgW : Config :=
  { spawn := fun _ _ => .done 0 "2\n".toList
    hitTool := fun _ _ => (1, [])
    debug := false
    debugShellCode := 0
    tempDir := "/tmp/t".toList
    processCwd := "/".toList }

/-- Fresh executor state at INFO logger level. -/
def stW : ExecState :=
  { lastEnv := none
    files := []
    fifos := []
    loggerLevel := INFO
    sysStdout := .terminal }

/-- A small environment with an absolute PWD and one variable. -/
def envW : Env := [(pwdKey, ['/']), (['X'], ['1'])]

/-- A commands scope containing a single cmd node with to_var. -/
def nodeScopeToVar : Node :=
  .mk {} (some
    [.mk { cmd := some ["printenv".toList, ['X']], to_var := some "CAPTURED".toList }
      none])

/-- A cmd node carrying both to_var and append_to_file. -/
def nodeBothSinks : Node :=
  .mk { cmd := some [['x']], to_var := some ['V'], append_to_file := some ['f'] } none

/-- A commands node carrying to_var. -/
def nodeScopeWithToVar : Node := .mk { to_var := some ['V'] } (some [])

/-- A cmd node whose append_to_file target is a sibling of the temp dir:
/tmp/txt extends /tmp/t as a string but does not lie within it. -/
def nodeRedirSibling : Node :=
  .mk { cmd := some [['x']], append_to_file := some "/tmp/txt".toList } none

/-- An import resolver that finds every artifact under /art. -/
def icfgW : ImportsCfg :=
  { resolve := fun _ => some "/art/a".toList
    artifact_dir := "/art".toList
    virtuals := [] }

/- ===== Helper lemmas ===== -/

/-- Mapping a function over an Except value does not change success. -/
theorem exOk_map {e a b : Type} (f : a → b) (x : Except e a) :
    exOk (x.map f) = exOk x := by
  cases x <;> rfl

/-- The Template scan succeeds exactly when the independent Boolean
placeholder check accepts, in every mode. -/
theorem tsGo_isOk (s : Str) : ∀ (env : Env) (m : TMode),
    exOk (tsGo env m s) = tsOk env m s := by
  induction s with
  | nil =>
    intro env m
    cases m with
    | plain => rfl
    | dollar => rfl
    | inBrace acc => rfl
    | inName acc =>
      simp only [tsGo, tsOk]
      cases envGet acc env <;> rfl
  | cons c rest ih =>
    intro env m
    cases m with
    | plain =>
      simp only [tsGo, tsOk]
      by_cases h : c = '$'
      · simp [h, ih]
      · simp [h, exOk_map, ih]
    | dollar =>
      simp only [tsGo, tsOk]
      by_cases h : c = '$'
      · simp [h, exOk_map, ih]
      · by_cases h2 : c = '\x7b'
        · simp [h, h2, ih]
        · by_cases h3 : isIdStart c
          · simp [h, h2, h3, ih]
          · simp [h, h2, h3, exOk]
    | inBrace acc =>
      simp only [tsGo, tsOk]
      by_cases h : c = '\x7d'
      · by_cases ha : acc = []
        · simp [h, ha, exOk]
        · cases hg : envGet acc env with
          | none => simp [h, ha, hg, exOk]
          | some v => simp [h, ha, hg, exOk_map, ih]
      · by_cases h2 : (if acc = [] then isIdStart c else isIdChar c)
        · simp [h, h2, ih]
        · simp [h, h2, exOk]
    | inName acc =>
      simp only [tsGo, tsOk]
      by_cases h : isIdChar c
      · simp [h, ih]
      · cases hg : envGet acc env with
        | none => simp [h, hg, exOk]
        | some v =>
          by_cases h2 : c = '$'
          · subst h2
            simp [hg, exOk_map, ih, show isIdChar '$' = false from rfl]
          · simp [h, hg, h2, exOk_map, ih]

/-- splitOnChar of a string without the separator is one field. -/
theorem splitOnChar_nosep (c : Char) (l : Str) (h : c ∉ l) :
    splitOnChar c l = [l] := by
  induction l with
  | nil => rfl
  | cons x xs ih =>
    simp only [List.mem_cons, not_or] at h
    simp only [splitOnChar]
    rw [if_neg (fun hx => h.1 hx.symm), ih h.2]

/-- splitOnChar peels one separator-free field before a separator. -/
theorem splitOnChar_sep (c : Char) (a b : Str) (h : c ∉ a) :
    splitOnChar c (a ++ c :: b) = a :: splitOnChar c b := by
  induction a with
  | nil => simp only [List.nil_append, splitOnChar, if_pos]
  | cons x xs ih =>
    simp only [List.mem_cons, not_or] at h
    simp only [List.cons_append, splitOnChar]
    rw [if_neg (fun hx => h.1 hx.symm)]
    simp only [List.append_eq]
    rw [ih h.2]

/-- Splitting a packed k=v entry on the equals sign recovers the pair
when neither side contains an equals sign. -/
theorem splitOnChar_entry (k v : Str) (hk : '=' ∉ k) (hv : '=' ∉ v) :
    splitOnChar '=' (k ++ '=' :: v) = [k, v] := by
  rw [splitOnChar_sep '=' k v hk, splitOnChar_nosep '=' v hv]

/-- Unfolding of joinWith for a list with at least two fields. -/
theorem joinWith_cons (c : Char) (e f : Str) (rest : List Str) :
    joinWith c (e :: f :: rest) = e ++ c :: joinWith c (f :: rest) := rfl

/-- Reading the separator-freedom booleans as non-membership facts. -/
theorem sepFree_split (p : Str × Str) (h : sepFree p = true) :
    ('=' ∉ p.1 ∧ ';' ∉ p.1) ∧ ('=' ∉ p.2 ∧ ';' ∉ p.2) := by
  unfold sepFree at h
  simp only [Bool.and_eq_true, List.all_eq_true] at h
  obtain ⟨h1, h2⟩ := h
  refine ⟨⟨fun hm => ?_, fun hm => ?_⟩, fun hm => ?_, fun hm => ?_⟩
  · have := h1 _ hm; simp at this
  · have := h1 _ hm; simp at this
  · have := h2 _ hm; simp at this
  · have := h2 _ hm; simp at this

/-- A packed entry contains no semicolon when key and value are clean. -/
theorem semi_not_mem_packEntry (p : Str × Str) (h1 : ';' ∉ p.1)
    (h2 : ';' ∉ p.2) : ';' ∉ packEntry p := by
  intro hm
  simp only [packEntry, List.mem_append, List.mem_cons] at hm
  rcases hm with hm | hm | hm
  · exact h1 hm
  · exact absurd hm (by decide)
  · exact h2 hm

/-- Members of an insertion come from the inserted pair or the list. -/
theorem mem_insertPair {q p : Str × Str} {l : List (Str × Str)}
    (h : q ∈ insertPair p l) : q = p ∨ q ∈ l := by
  induction l with
  | nil => simpa [insertPair] using h
  | cons r rest ih =>
    unfold insertPair at h
    by_cases hc : pairLe p r
    · rw [if_pos hc] at h
      simp only [List.mem_cons] at h ⊢
      exact h
    · rw [if_neg hc] at h
      rcases List.mem_cons.mp h with h1 | h1
      · right
        exact List.mem_cons.mpr (Or.inl h1)
      · rcases ih h1 with h2 | h2
        · left
          exact h2
        · right
          exact List.mem_cons.mpr (Or.inr h2)

/-- Sorting introduces no new pairs. -/
theorem mem_sortPairs {q : Str × Str} {v : List (Str × Str)}
    (h : q ∈ sortPairs v) : q ∈ v := by
  induction v with
  | nil =>
    rw [show sortPairs [] = [] from rfl] at h
    exact h
  | cons p rest ih =>
    unfold sortPairs at h
    rcases mem_insertPair h with h1 | h1
    · simp [h1]
    · simp [ih h1]

/-- The packed form of a nonempty pair list is nonempty. -/
theorem join_packEntry_ne_nil (p : Str × Str) (rest : List (Str × Str)) :
    joinWith ';' ((p :: rest).map packEntry) ≠ [] := by
  cases rest with
  | nil => simp [joinWith, packEntry]
  | cons q r2 => simp [joinWith, packEntry]

/-- Splitting the semicolon-joined clean entries and re-pairing each on
its equals sign recovers the original pair list. -/
theorem unpack_join (w : List (Str × Str)) (hw : w ≠ [])
    (h : ∀ p ∈ w, sepFree p = true) :
    unpackEntries (splitOnChar ';' (joinWith ';' (w.map packEntry))) = some w := by
  induction w with
  | nil => exact absurd rfl hw
  | cons p rest ih =>
    obtain ⟨⟨hk1, hk2⟩, hv1, hv2⟩ := sepFree_split p (h p (List.mem_cons_self p rest))
    cases rest with
    | nil =>
      show unpackEntries (splitOnChar ';' (packEntry p)) = some [p]
      rw [splitOnChar_nosep ';' (packEntry p) (semi_not_mem_packEntry p hk2 hv2)]
      simp [unpackEntries, packEntry, splitOnChar_entry p.1 p.2 hk1 hv1]
    | cons q rest2 =>
      rw [List.map_cons, List.map_cons, joinWith_cons,
        splitOnChar_sep ';' (packEntry p) _ (semi_not_mem_packEntry p hk2 hv2)]
      have ihr := ih (by simp) (fun r hr => h r (List.mem_cons_of_mem p hr))
      rw [List.map_cons] at ihr
      have hsplit : splitOnChar '=' (packEntry p) = [p.1, p.2] :=
        splitOnChar_entry p.1 p.2 hk1 hv1
      simp only [unpackEntries, hsplit]
      rw [ihr]

/-- Assigning one key leaves every other key unchanged. -/
theorem envGet_envSet_ne (k k2 v : Str) (e : Env) (h : k2 ≠ k) :
    envGet k2 (envSet k v e) = envGet k2 e := by
  induction e with
  | nil =>
    simp only [envSet, envGet]
    rw [if_neg (fun hx : k = k2 => h hx.symm)]
  | cons kv rest ih =>
    obtain ⟨k3, w⟩ := kv
    simp only [envSet]
    by_cases h3 : k3 = k
    · rw [if_pos h3]
      show (if k3 = k2 then some v else envGet k2 rest) = envGet k2 ((k3, w) :: rest)
      rw [if_neg (fun hx => h (hx.symm.trans h3))]
      show envGet k2 rest = if k3 = k2 then some w else envGet k2 rest
      rw [if_neg (fun hx => h (hx.symm.trans h3))]
    · rw [if_neg h3]
      show (if k3 = k2 then some w else envGet k2 (envSet k v rest)) =
        envGet k2 ((k3, w) :: rest)
      by_cases h4 : k3 = k2
      · rw [if_pos h4]
        show some w = if k3 = k2 then some w else envGet k2 rest
        rw [if_pos h4]
      · rw [if_neg h4, ih]
        show envGet k2 rest = if k3 = k2 then some w else envGet k2 rest
        rw [if_neg h4]

/-- The count of a present key is one. -/
theorem optCount_some {a : Type} (x : a) : optCount (some x) = 1 := rfl

/-- A node whose commands key is present has at least one type key. -/
theorem presentTypes_some_pos (f : NFields) (l : List Node) :
    0 < presentTypes f (some l) := by
  have h1 : optCount (some l) = 1 := rfl
  unfold presentTypes
  omega

/-- Frame property of a commands scope: whatever the sub-list does, a
successful commands node hands the unchanged parent env back
(handle_commands runs the children on a copy and discards it). -/
theorem runNode_commands_frame (cfg : Config) (fuel : Nat) (f : NFields)
    (l : List Node) (pos : List Nat) (env : Env) (st : ExecState)
    (env2 : Env) (st2 : ExecState)
    (h : runNode cfg fuel (.mk f (some l)) pos env st = .ok (env2, st2)) :
    env2 = env := by
  cases fuel with
  | zero => exact absurd h (by simp [runNode])
  | succ fuel =>
    have hne : presentTypes f (some l) ≠ 0 :=
      Nat.pos_iff_ne_zero.mp (presentTypes_some_pos f l)
    simp only [runNode] at h
    rw [if_neg hne] at h
    by_cases h1 : 1 < presentTypes f (some l)
    · rw [if_pos h1] at h
      exact absurd h (by simp)
    · rw [if_neg h1, if_pos (show (some l).isSome = true from rfl)] at h
      cases hrun : runListWith (fun n p e s => runNode cfg fuel n p e s)
          ((some l).getD []) pos 0 env st with
      | error e =>
        rw [hrun] at h
        exact absurd h (by simp)
      | ok pr =>
        rw [hrun] at h
        obtain ⟨env3, st3⟩ := pr
        simp only [Except.ok.injEq, Prod.mk.injEq] at h
        exact h.1.symm

/-- If every node of a list preserves last_env under the given runner,
the sequential run of the list preserves it as well. -/
theorem lastEnv_listWith
    (run : Node → List Nat → Env → ExecState → Except RunErr (Env × ExecState))
    (hrunNode : ∀ n pos env st env2 st2, noCmdHit n = true →
      run n pos env st = .ok (env2, st2) → st2.lastEnv = st.lastEnv) :
    ∀ (l : List Node) (pos : List Nat) (i : Nat) (env : Env) (st : ExecState)
      (env2 : Env) (st2 : ExecState), noCmdHitList l = true →
      runListWith run l pos i env st = .ok (env2, st2) →
      st2.lastEnv = st.lastEnv := by
  intro l
  induction l with
  | nil =>
    intro pos i env st env2 st2 _ hrun
    simp only [runListWith, Except.ok.injEq, Prod.mk.injEq] at hrun
    rw [← hrun.2]
  | cons n rest ih =>
    intro pos i env st env2 st2 hno hrun
    simp only [noCmdHitList, Bool.and_eq_true] at hno
    simp only [runListWith] at hrun
    cases hr : run n (pos ++ [i]) env st with
    | error e =>
      rw [hr] at hrun
      exact absurd hrun (by simp)
    | ok pr =>
      obtain ⟨env3, st3⟩ := pr
      rw [hr] at hrun
      have h1 := hrunNode n (pos ++ [i]) env st env3 st3 hno.1 hr
      have h2 := ih pos (i + 1) env3 st3 env2 st2 hno.2 hrun
      rw [h2, h1]

/-- A node whose tree carries neither cmd nor hit leaves the last_env
snapshot of the executor untouched whenever it succeeds. -/
theorem lastEnv_node_frame (cfg : Config) : ∀ (fuel : Nat) (n : Node)
    (pos : List Nat) (env : Env) (st : ExecState) (env2 : Env) (st2 : ExecState),
    noCmdHit n = true → runNode cfg fuel n pos env st = .ok (env2, st2) →
    st2.lastEnv = st.lastEnv := by
  intro fuel
  induction fuel with
  | zero =>
    intro n pos env st env2 st2 _ hrun
    exact absurd hrun (by simp [runNode])
  | succ fuel ih =>
    intro n pos env st env2 st2 hno hrun
    obtain ⟨f, cs⟩ := n
    cases cs with
    | some l =>
      have hnol : noCmdHitList l = true := by
        simp only [noCmdHit, Bool.and_eq_true] at hno
        exact hno.2
      simp only [runNode] at hrun
      by_cases h0 : presentTypes f (some l) = 0
      · rw [if_pos h0] at hrun
        by_cases hl : nodeLen f (some l) > 0
        · rw [if_pos hl] at hrun
          exact absurd hrun (by simp)
        · rw [if_neg hl] at hrun
          simp only [Except.ok.injEq, Prod.mk.injEq] at hrun
          rw [← hrun.2]
      · rw [if_neg h0] at hrun
        by_cases h1 : 1 < presentTypes f (some l)
        · rw [if_pos h1] at hrun
          exact absurd hrun (by simp)
        · rw [if_neg h1, if_pos (show (some l).isSome = true from rfl)] at hrun
          cases hrl : runListWith (fun n p e s => runNode cfg fuel n p e s)
              ((some l).getD []) pos 0 env st with
          | error e =>
            rw [hrl] at hrun
            exact absurd hrun (by simp)
          | ok pr =>
            obtain ⟨env3, st3⟩ := pr
            rw [hrl] at hrun
            simp only [Except.ok.injEq, Prod.mk.injEq] at hrun
            have hlist := lastEnv_listWith
              (fun n p e s => runNode cfg fuel n p e s)
              (fun n p e s e2 s2 hn hr => ih n p e s e2 s2 hn hr)
              l pos 0 env st env3 st3 hnol hrl
            rw [← hrun.2]
            exact hlist
    | none =>
      have hch : f.cmd.isSome = false ∧ f.hit.isSome = false := by
        simp only [noCmdHit, Bool.and_eq_true, Option.isNone_iff_eq_none] at hno
        constructor
        · rw [hno.1]
          rfl
        · rw [hno.2]
          rfl
      simp only [runNode] at hrun
      by_cases h0 : presentTypes f none = 0
      · rw [if_pos h0] at hrun
        by_cases hl : nodeLen f none > 0
        · rw [if_pos hl] at hrun
          exact absurd hrun (by simp)
        · rw [if_neg hl] at hrun
          simp only [Except.ok.injEq, Prod.mk.injEq] at hrun
          rw [← hrun.2]
      · rw [if_neg h0] at hrun
        by_cases h1 : 1 < presentTypes f none
        · rw [if_pos h1] at hrun
          exact absurd hrun (by simp)
        · rw [if_neg h1,
            if_neg (show ¬((none : Option (List Node)).isSome = true) by simp),
            if_neg (by simp [hch.1, hch.2])] at hrun
          repeat' split at hrun
          all_goals
            first
            | (simp only [Except.ok.injEq, Prod.mk.injEq] at hrun; rw [← hrun.2])
            | exact absurd hrun (by simp)

/-- Evaluation of a chdir node: PWD is reassigned on the scope env to
the absolutized join, the executor state is untouched. -/
theorem runNode_chdir (cfg : Config) (fuel : Nat) (d d2 : Str) (pos : List Nat)
    (env : Env) (st : ExecState) (pwd : Str)
    (hsub : substitute d env = .ok d2) (hpwd : envGet pwdKey env = some pwd) :
    runNode cfg (fuel + 1) (.mk { chdir := some d } none) pos env st =
      .ok (envSet pwdKey (abspath cfg.processCwd (pjoin pwd d2)) env, st) := by
  have hc : handle_chdir cfg { chdir := some d } env =
      .ok (envSet pwdKey (abspath cfg.processCwd (pjoin pwd d2)) env) := by
    simp only [handle_chdir, hsub, hpwd]
  simp only [runNode, presentTypes, nodeLen, optCount, hc]
  rfl

/-- Evaluation of a cmd node with to_var over a successful child: the
stripped captured stdout is assigned into the scope env under the named
key, and last_env becomes the node env (here the scope env itself,
since the node has no inputs). -/
theorem runNode_cmd_to_var (cfg : Config) (fuel : Nat) (args args2 : List Str)
    (v : Str) (pos : List Nat) (env : Env) (st : ExecState) (out : Str)
    (hsub : substList args env = .ok args2)
    (hspawn : cfg.spawn args2 env = .done 0 out) :
    runNode cfg (fuel + 1) (.mk { cmd := some args, to_var := some v } none)
        pos env st =
      .ok (envSet v (stripStr out) env, { st with lastEnv := some env }) := by
  have henv : envUpdate env [] = env := rfl
  simp only [runNode, presentTypes, nodeLen, optCount, handle_command_nodes,
    dump_inputs, dumpLoop, Option.getD, henv, hsub, runCmd, hspawn]
  rfl

/-- Evaluation of a plain cmd node (no capture, debug off) over a
successful child: the scope env is unchanged and last_env becomes the
node env. -/
theorem runNode_cmd_plain (cfg : Config) (fuel : Nat) (args args2 : List Str)
    (pos : List Nat) (env : Env) (st : ExecState) (out : Str)
    (hdebug : cfg.debug = false)
    (hsub : substList args env = .ok args2)
    (hspawn : cfg.spawn args2 env = .done 0 out) :
    runNode cfg (fuel + 1) (.mk { cmd := some args } none) pos env st =
      .ok (env, { st with lastEnv := some env }) := by
  have henv : envUpdate env [] = env := rfl
  simp only [runNode, presentTypes, nodeLen, optCount, handle_command_nodes,
    dump_inputs, dumpLoop, Option.getD, henv, hsub, hdebug, runCmd, hspawn]
  rfl

/-- Evaluation of a cmd node with append_to_file: after substitution,
absolutization against PWD and canonicalization, a target that extends
the temp-dir path as a string is refused without consulting the spawn
oracle; otherwise a successful child appends its stdout to the file. -/
theorem runNode_cmd_append (cfg : Config) (fuel : Nat) (args args2 : List Str)
    (tgt tgt0 : Str) (pos : List Nat) (env : Env) (st : ExecState) (pwd : Str)
    (hsub : substList args env = .ok args2)
    (htgt : substitute tgt env = .ok tgt0)
    (hpwd : envGet pwdKey env = some pwd) :
    (strPre cfg.tempDir
        (realpath cfg.processCwd (if isAbs tgt0 then tgt0 else pjoin pwd tgt0)) = true →
      runNode cfg (fuel + 1)
          (.mk { cmd := some args, append_to_file := some tgt } none) pos env st =
        .error .redirectToTempForbidden) ∧
    (∀ out : Str,
      strPre cfg.tempDir
        (realpath cfg.processCwd (if isAbs tgt0 then tgt0 else pjoin pwd tgt0)) = false →
      cfg.spawn args2 env = .done 0 out →
      runNode cfg (fuel + 1)
          (.mk { cmd := some args, append_to_file := some tgt } none) pos env st =
        .ok (env, { st with
          files := st.files ++
            [(realpath cfg.processCwd (if isAbs tgt0 then tgt0 else pjoin pwd tgt0), out)]
          lastEnv := some env })) := by
  have henv : envUpdate env [] = env := rfl
  have ht1 : (if isAbs tgt0 then Except.ok tgt0
      else match envGet pwdKey env with
        | none => Except.error RunErr.keyErrorPwd
        | some pwd2 => Except.ok (pjoin pwd2 tgt0)) =
      Except.ok (if isAbs tgt0 then tgt0 else pjoin pwd tgt0) := by
    by_cases ha : isAbs tgt0
    · simp [ha]
    · simp [ha, hpwd]
  constructor
  · intro hin
    simp only [runNode, presentTypes, nodeLen, optCount, handle_command_nodes,
      dump_inputs, dumpLoop, Option.getD, henv, hsub, htgt, ht1, hin]
    rfl
  · intro out hout hspawn
    simp only [runNode, presentTypes, nodeLen, optCount, handle_command_nodes,
      dump_inputs, dumpLoop, Option.getD, henv, hsub, htgt, ht1, hout, runCmd, hspawn]
    rfl

/- ===== Claim theorems ===== -/

/-- Claim C1, counterexample: a commands scope containing a cmd node
with to_var CAPTURED whose child prints 2 returns the enclosing env
unchanged — the claim asserts the captured value is assigned into the
enclosing env under CAPTURED, but the result env has no such key.  The
export dies with the discarded scope copy. -/
theorem c1_counterexample :
    runNode cfgW 3 nodeScopeToVar [0] envW stW =
      .ok (envW, { stW with lastEnv := some envW }) ∧
    envGet "CAPTURED".toList envW = none :=
  ⟨rfl, rfl⟩

/-- Claim C1, amended: all mutations inside a commands sub-scope,
to_var assignments included, are invisible to the enclosing scope once
the sub-scope exits (first conjunct: a successful commands node returns
the parent env unchanged, whatever its sub-list did); to_var assigns
the stripped captured stdout into the env of the scope immediately
containing the cmd node (second conjunct). -/
theorem c1_scope_and_to_var :
    (∀ (cfg : Config) (fuel : Nat) (f : NFields) (l : List Node) (pos : List Nat)
      (env : Env) (st : ExecState) (env2 : Env) (st2 : ExecState),
      runNode cfg fuel (.mk f (some l)) pos env st = .ok (env2, st2) →
      env2 = env) ∧
    (∀ (cfg : Config) (fuel : Nat) (args args2 : List Str) (v : Str)
      (pos : List Nat) (env : Env) (st : ExecState) (out : Str),
      substList args env = .ok args2 → cfg.spawn args2 env = .done 0 out →
      runNode cfg (fuel + 1) (.mk { cmd := some args, to_var := some v } none)
          pos env st =
        .ok (envSet v (stripStr out) env, { st with lastEnv := some env })) :=
  ⟨fun cfg fuel f l pos env st env2 st2 h =>
      runNode_commands_frame cfg fuel f l pos env st env2 st2 h,
    fun cfg fuel args args2 v pos env st out hsub hspawn =>
      runNode_cmd_to_var cfg fuel args args2 v pos env st out hsub hspawn⟩

/-- Witness for the amended claim C1 at concrete inputs: the frame part
applied to the counterexample scope, and the to_var part applied to a
concrete cmd node. -/
theorem c1_scope_and_to_var_witness :
    envW = envW ∧
    runNode cfgW 1 (.mk { cmd := some [['x']], to_var := some ['V'] } none)
        [0] envW stW =
      .ok (envSet ['V'] (stripStr "2\n".toList) envW,
        { stW with lastEnv := some envW }) :=
  ⟨c1_scope_and_to_var.1 cfgW 3 {}
      [.mk { cmd := some [['p']], to_var := some "CAPTURED".toList } none]
      [0] envW stW envW { stW with lastEnv := some envW } rfl,
    c1_scope_and_to_var.2 cfgW 0 [['x']] [['x']] ['V'] [0] envW stW
      "2\n".toList rfl rfl⟩

/-- Claim C2: with a job spec whose commands key is missing, run_job
still validates every import (third conjunct: an unprovided virtual
one raises before anything else) but then raises KeyError from
handle_imports reading the commands key, instead of returning the empty
dict promised by the claim and by its own docstring (first conjunct);
with an empty commands list it returns the untouched None snapshot
rather than an empty mapping (second conjunct). -/
theorem c2_run_job_boundary :
    run_job cfgW icfgW 5 { jobImports := [{ id := ['a'] }], commands := none }
        [] ['/'] [] INFO = .error .keyErrorCommands ∧
    run_job cfgW icfgW 5 { jobImports := [], commands := some [] }
        [] ['/'] [] INFO = .ok none ∧
    run_job cfgW icfgW 5
        { jobImports := [{ id := "virtual:x".toList }], commands := none }
        [] ['/'] [] INFO = .error (.missingVirtual "virtual:x".toList) :=
  ⟨rfl, rfl, rfl⟩

/-- Claim C3: a cmd node carrying both to_var and append_to_file is not
rejected — the stale check tests stdout_to_file, so the node runs and
to_var silently wins (first conjunct: V is assigned, no file write, no
error); a commands node carrying to_var is not rejected either, because
handle_commands never calls the checks of handle_command_nodes (second
conjunct: the scope runs as a no-op). -/
theorem c3_checks_not_enforced :
    runNode cfgW 2 nodeBothSinks [0] envW stW =
      .ok (envSet ['V'] ['2'] envW, { stW with lastEnv := some envW }) ∧
    runNode cfgW 2 nodeScopeWithToVar [0] envW stW = .ok (envW, stW) :=
  ⟨rfl, rfl⟩

/-- Claim C4: the escape rules diverge from the documented grammar.  A
two-backslash input comes out unchanged (first conjunct; the claim and
the module docstring say it collapses to one backslash) and six
backslashes come out as four (second conjunct; the claim says three),
because the replace call uses a raw string and therefore replaces four
backslashes by two.  The remaining conjuncts record the behaviour the
claim states correctly: backslash-dollar yields a literal dollar with
the following name unresolved, and bare and braced references expand
from the env. -/
theorem c4_backslash_semantics :
    substitute ['\\', '\\'] [] = .ok ['\\', '\\'] ∧
    substitute ['\\', '\\', '\\', '\\', '\\', '\\'] [] =
      .ok ['\\', '\\', '\\', '\\'] ∧
    substitute ['\\', '$', 'F'] [] = .ok ['$', 'F'] ∧
    substitute ['$', 'X'] [(['X'], ['1'])] = .ok ['1'] ∧
    substitute ['a', '$', '\x7b', 'X', '\x7d', 'b'] [(['X'], ['1'])] =
      .ok ['a', '1', 'b'] :=
  ⟨rfl, rfl, rfl, rfl, rfl⟩

/-- Claim C5, counterexample: for the mapping a maps-to b=c, packing
gives a=b=c and unpacking splits on every equals sign, producing a
three-field entry that the dict constructor rejects — the round trip
raises instead of returning the mapping, refuting the claim for every
mapping and its description of splitting on the first equals sign
only. -/
theorem c5_counterexample :
    unpack_virtuals_envvar (pack_virtuals_envvar [(['a'], ['b', '=', 'c'])]) =
      none :=
  rfl

/-- Claim C5, amended: for every mapping whose keys and values contain
neither the equals sign nor the semicolon, unpacking the packed value
returns exactly the key-sorted pair list of the mapping, which is the
original mapping up to dict ordering. -/
theorem c5_pack_unpack_clean (v : List (Str × Str))
    (h : ∀ p ∈ v, sepFree p = true) :
    unpack_virtuals_envvar (pack_virtuals_envvar v) = some (sortPairs v) := by
  unfold pack_virtuals_envvar unpack_virtuals_envvar
  cases hs : sortPairs v with
  | nil => rfl
  | cons p rest =>
    have hmem : ∀ q ∈ sortPairs v, sepFree q = true :=
      fun q hq => h q (mem_sortPairs hq)
    rw [hs] at hmem
    rw [if_neg (join_packEntry_ne_nil p rest)]
    exact unpack_join (p :: rest) (by simp) hmem

/-- Witness for the amended claim C5 on a concrete two-entry mapping. -/
theorem c5_pack_unpack_clean_witness :
    unpack_virtuals_envvar
        (pack_virtuals_envvar [(['b'], ['2']), (['a'], ['1'])]) =
      some [(['a'], ['1']), (['b'], ['2'])] :=
  (c5_pack_unpack_clean [(['b'], ['2']), (['a'], ['1'])] (by decide)).trans rfl

/-- Claim C6: run_hit restores the logger level and the process-wide
stdout on every exit path (first conjunct, all inputs); but when the
tool returns a non-zero code the exception that surfaces is the
NameError from interpolating the undefined name ret at line 652, not
the intended hit-command-failed RuntimeError (second conjunct, at a
tool returning 1 under an INFO logger with capture active). -/
theorem c6_hit_restore_and_error :
    (∀ (cfg : Config) (args : List Str) (env : Env) (capture : Bool)
      (st : ExecState),
      (runHit cfg args env capture st).2.loggerLevel = st.loggerLevel ∧
      (runHit cfg args env capture st).2.sysStdout = st.sysStdout) ∧
    runHit cfgW [['t']] envW true stW = (.error .hitNameErrorRet, stW) :=
  ⟨fun _ _ _ _ _ => ⟨rfl, rfl⟩, rfl⟩

/-- Claim C7, counterexample: the one-character input consisting of a
lone dollar sign contains no dollar-dollar sequence and references no
variable, yet substitute fails — with the invalid-placeholder
ValueError of string.Template, not with an unbound-variable KeyError —
refuting the claimed exactness. -/
theorem c7_counterexample :
    substitute ['$'] [] = .error .invalidPlaceholder ∧
    hasDollarDollar ['$'] = false :=
  ⟨rfl, rfl⟩

/-- Claim C7, amended: substitute succeeds exactly when the input
contains no dollar-dollar sequence and, after the two escape rewrites,
every dollar sign begins a valid bound placeholder: an escaped dollar,
a bound bare name, or a bound braced name.  Inputs with dollar-dollar
or an unbound reference fail with KeyError; any other ill-formed use of
the dollar sign fails with the ValueError of string.Template. -/
theorem c7_substitute_success_iff (s : Str) (env : Env) :
    exOk (substitute s env) =
      (!hasDollarDollar s &&
        tsOk env .plain (replaceBackslashDollar (replaceQuadBackslash s))) := by
  unfold substitute
  by_cases h : hasDollarDollar s
  · simp [h, exOk]
  · simp [h, tsGo_isOk]

/-- Claim C8: a chdir node substitutes its operand, joins it with the
current PWD, absolutizes, and stores the result into PWD of the scope
the node belongs to (first conjunct); every other key is unchanged
(second conjunct); the new PWD is visible to the following siblings of
the same scope and their children, because the list runner threads the
updated env onward (third conjunct); and it does not escape an
enclosing commands scope (fourth conjunct). -/
theorem c8_chdir_scope :
    (∀ (cfg : Config) (fuel : Nat) (d d2 : Str) (pos : List Nat) (env : Env)
      (st : ExecState) (pwd : Str),
      substitute d env = .ok d2 → envGet pwdKey env = some pwd →
      runNode cfg (fuel + 1) (.mk { chdir := some d } none) pos env st =
        .ok (envSet pwdKey (abspath cfg.processCwd (pjoin pwd d2)) env, st)) ∧
    (∀ (k newPwd : Str) (env : Env), k ≠ pwdKey →
      envGet k (envSet pwdKey newPwd env) = envGet k env) ∧
    (∀ (cfg : Config) (fuel : Nat) (d d2 : Str) (rest : List Node)
      (pos : List Nat) (i : Nat) (env : Env) (st : ExecState) (pwd : Str),
      substitute d env = .ok d2 → envGet pwdKey env = some pwd →
      runListWith (fun n p e s => runNode cfg (fuel + 1) n p e s)
          (.mk { chdir := some d } none :: rest) pos i env st =
        runListWith (fun n p e s => runNode cfg (fuel + 1) n p e s) rest pos
          (i + 1) (envSet pwdKey (abspath cfg.processCwd (pjoin pwd d2)) env) st) ∧
    (∀ (cfg : Config) (fuel : Nat) (f : NFields) (l : List Node) (pos : List Nat)
      (env : Env) (st : ExecState) (env2 : Env) (st2 : ExecState),
      runNode cfg fuel (.mk f (some l)) pos env st = .ok (env2, st2) →
      env2 = env) := by
  refine ⟨fun cfg fuel d d2 pos env st pwd hsub hpwd =>
      runNode_chdir cfg fuel d d2 pos env st pwd hsub hpwd,
    fun k newPwd env hk => envGet_envSet_ne pwdKey k newPwd env hk,
    fun cfg fuel d d2 rest pos i env st pwd hsub hpwd => ?_,
    fun cfg fuel f l pos env st env2 st2 h =>
      runNode_commands_frame cfg fuel f l pos env st env2 st2 h⟩
  simp only [runListWith,
    runNode_chdir cfg fuel d d2 (pos ++ [i]) env st pwd hsub hpwd]

/-- Witness for claim C8: changing directory to src from the root
rewrites PWD to /src, leaves X alone, and is applied to the env seen by
the rest of the sibling list. -/
theorem c8_chdir_scope_witness :
    runNode cfgW 1 (.mk { chdir := some "src".toList } none) [0] envW stW =
      .ok (envSet pwdKey
        (abspath cfgW.processCwd (pjoin ['/'] "src".toList)) envW, stW) ∧
    envGet ['X'] (envSet pwdKey "/src".toList envW) = envGet ['X'] envW :=
  ⟨c8_chdir_scope.1 cfgW 0 "src".toList "src".toList [0] envW stW ['/'] rfl rfl,
    c8_chdir_scope.2.1 ['X'] "/src".toList envW (by decide)⟩

/-- Claim C9, counterexample: with the run temp dir /tmp/t, the target
/tmp/txt does not lie within the temp dir, yet the node is refused with
the redirect error because the source tests a plain string prefix — the
claim promises the file would be opened and written. -/
theorem c9_counterexample :
    runNode cfgW 2 nodeRedirSibling [0] envW stW =
      .error .redirectToTempForbidden ∧
    pathWithin "/tmp/t".toList "/tmp/txt".toList = false :=
  ⟨rfl, rfl⟩

/-- Claim C9, amended: the append_to_file target is substituted,
absolutized against PWD, and canonicalized; if the result has the
temp-dir path as a string prefix — which covers every path within the
temp dir but also sibling paths whose name extends the temp dir name —
the node fails with the redirect error and no child is spawned (the
outcome is the same for every spawn oracle, first conjunct); otherwise
a successful child appends its stdout to the file (second conjunct). -/
theorem c9_append_to_file_guard (cfg : Config) (fuel : Nat)
    (args args2 : List Str) (tgt tgt0 : Str) (pos : List Nat) (env : Env)
    (st : ExecState) (pwd : Str)
    (hsub : substList args env = .ok args2)
    (htgt : substitute tgt env = .ok tgt0)
    (hpwd : envGet pwdKey env = some pwd) :
    (strPre cfg.tempDir
        (realpath cfg.processCwd (if isAbs tgt0 then tgt0 else pjoin pwd tgt0)) = true →
      runNode cfg (fuel + 1)
          (.mk { cmd := some args, append_to_file := some tgt } none) pos env st =
        .error .redirectToTempForbidden) ∧
    (∀ out : Str,
      strPre cfg.tempDir
        (realpath cfg.processCwd (if isAbs tgt0 then tgt0 else pjoin pwd tgt0)) = false →
      cfg.spawn args2 env = .done 0 out →
      runNode cfg (fuel + 1)
          (.mk { cmd := some args, append_to_file := some tgt } none) pos env st =
        .ok (env, { st with
          files := st.files ++
            [(realpath cfg.processCwd (if isAbs tgt0 then tgt0 else pjoin pwd tgt0), out)]
          lastEnv := some env })) :=
  runNode_cmd_append cfg fuel args args2 tgt tgt0 pos env st pwd hsub htgt hpwd

/-- Witness for the amended claim C9: the sibling path /tmp/txt is
refused, and the outside path /out/log receives the child stdout. -/
theorem c9_append_to_file_guard_witness :
    runNode cfgW 1 nodeRedirSibling [0] envW stW =
      .error .redirectToTempForbidden ∧
    runNode cfgW 1
        (.mk { cmd := some [['x']], append_to_file := some "/out/log".toList } none)
        [0] envW stW =
      .ok (envW, { stW with
        files := [("/out/log".toList, "2\n".toList)]
        lastEnv := some envW }) :=
  ⟨(c9_append_to_file_guard cfgW 0 [['x']] [['x']] "/tmp/txt".toList
      "/tmp/txt".toList [0] envW stW ['/'] rfl rfl rfl).1 rfl,
    ((c9_append_to_file_guard cfgW 0 [['x']] [['x']] "/out/log".toList
      "/out/log".toList [0] envW stW ['/'] rfl rfl rfl).2 "2\n".toList rfl
      rfl).trans rfl⟩

/-- Claim C10: a node tree containing neither cmd nor hit leaves the
last_env snapshot untouched whenever it runs successfully — so env
mutations after the last cmd or hit node are never reflected, and a run
without any cmd or hit keeps the initial null snapshot (first
conjunct); a successful cmd node overwrites the snapshot with its node
env (second conjunct). -/
theorem c10_last_env :
    (∀ (cfg : Config) (fuel : Nat) (l : List Node) (pos : List Nat) (i : Nat)
      (env : Env) (st : ExecState) (env2 : Env) (st2 : ExecState),
      noCmdHitList l = true →
      runListWith (fun n p e s => runNode cfg fuel n p e s) l pos i env st =
        .ok (env2, st2) →
      st2.lastEnv = st.lastEnv) ∧
    (∀ (cfg : Config) (fuel : Nat) (args args2 : List Str) (pos : List Nat)
      (env : Env) (st : ExecState) (out : Str),
      cfg.debug = false → substList args env = .ok args2 →
      cfg.spawn args2 env = .done 0 out →
      runNode cfg (fuel + 1) (.mk { cmd := some args } none) pos env st =
        .ok (env, { st with lastEnv := some env })) :=
  ⟨fun cfg fuel l pos i env st env2 st2 hno hrun =>
      lastEnv_listWith (fun n p e s => runNode cfg fuel n p e s)
        (fun n p e s e2 s2 hn hr => lastEnv_node_frame cfg fuel n p e s e2 s2 hn hr)
        l pos i env st env2 st2 hno hrun,
    fun cfg fuel args args2 pos env st out hdebug hsub hspawn =>
      runNode_cmd_plain cfg fuel args args2 pos env st out hdebug hsub hspawn⟩

/-- Witness for claim C10: a set node after a cmd node leaves the
snapshot at the env of the cmd node, and a list of one set node keeps
the initial null snapshot. -/
theorem c10_last_env_witness :
    ({ stW with lastEnv := some envW } : ExecState).lastEnv =
      ({ stW with lastEnv := some envW } : ExecState).lastEnv ∧
    runNode cfgW 1 (.mk { cmd := some [['x']] } none) [0] envW stW =
      .ok (envW, { stW with lastEnv := some envW }) :=
  ⟨c10_last_env.1 cfgW 1 [.mk { set := some ['Y'], value := some ['2'] } none]
      [] 1 envW { stW with lastEnv := some envW } (envSet ['Y'] ['2'] envW)
      { stW with lastEnv := some envW } rfl rfl,
    c10_last_env.2 cfgW 0 [['x']] [['x']] [0] envW stW "2\n".toList rfl rfl rfl⟩

end RunJob
